import Mathlib

/-!
# Verification of the EnGeL protobiogenesis simulation core

A shallow embedding of `biogenesis_core.py` (the `Params`/`run_trial`/
`run_simulation` core of the EnGeL-Theory repository) and proofs of the
spec's claims about it.

Modelling conventions:
* Python floats are modelled as exact rationals (`ℚ`); the float literals of
  the source appear as the corresponding decimal rationals.
* The NumPy random generator is modelled as an explicit state: an unbounded
  stream of rationals together with a read position.  `rng.random()` consumes
  one stream value (a uniform draw in `[0,1)`); `rng.normal(mu, sigma)`
  consumes one stream value `z` (a standard-normal deviate) and returns
  `mu + sigma * z`, which is NumPy's location-scale semantics; an `n×n`
  uniform matrix draw consumes `n*n` stream values in row-major order.
* Calls into numerical library routines whose values the core only reads —
  `np.linalg.eigvals` (through the spectral radius) and `np.log` — are two
  parameters bundled in `NumEnv`; every theorem below holds for every such
  environment, and witnesses instantiate them concretely.
* Fallible Python code is modelled with `Except`: the unguarded
  `successes / params.trials` in `run_simulation` raises `ZeroDivisionError`
  when `trials == 0`, so the embedded `run_simulation` returns
  `Except.error` exactly there.
-/

namespace EnGeL

/-- `1e-12`, the epsilon added to row sums in `build_reaction_network` and to
matrix entries in the entropy term of `evaluate_cycle_coherence`. -/
def eps12 : ℚ := 1 / 10 ^ 12

/-- `1e-9`, the epsilon used in `resonance_score` and `invariant_I`. -/
def eps9 : ℚ := 1 / 10 ^ 9

/-- `1e-6`, the epsilon used in the loop-strength term of
`evaluate_cycle_coherence`. -/
def eps6 : ℚ := 1 / 10 ^ 6

/-- `np.mean` over a Python list (sum divided by length).  NumPy's mean of an
empty list is NaN; in `ℚ` the quotient is `0 / 0 = 0`, and every use below is
either guarded by a nonemptiness test (as in `run_simulation`) or appears
under a nonemptiness hypothesis. -/
def listMean (l : List ℚ) : ℚ := l.sum / l.length

/-- Python 3's built-in `round` on one argument: round half to even. -/
def pyRound (x : ℚ) : ℤ :=
  let f := ⌊x⌋
  let r := x - f
  if r < 1 / 2 then f
  else if 1 / 2 < r then f + 1
  else if Even f then f else f + 1

/-- The state of the module-level `rng = np.random.default_rng(42)`: a stream
of draws and the current read position. -/
structure Rng where
  stream : ℕ → ℚ
  pos : ℕ

/-- `rng.random()`: one uniform draw in `[0,1)`. -/
def Rng.random (g : Rng) : ℚ × Rng :=
  (g.stream g.pos, { g with pos := g.pos + 1 })

/-- `rng.normal(mu, sigma)`: one standard-normal deviate `z` from the stream,
returned as `mu + sigma * z`. -/
def Rng.normal (g : Rng) (mu sigma : ℚ) : ℚ × Rng :=
  (mu + sigma * g.stream g.pos, { g with pos := g.pos + 1 })

/-- The numerical-library routines `biogenesis_core.py` calls but does not
define: `np.max(np.abs(np.linalg.eigvals(m))).real` and elementwise `np.log`.
All theorems hold for every environment. -/
structure NumEnv where
  spectralRadius : {n : ℕ} → Matrix (Fin n) (Fin n) ℚ → ℚ
  log : ℚ → ℚ

/-! ## `build_reaction_network`, staged

`adj = rng.random((n, n))`, `mask = rng.random((n, n)) < density`,
`adj = adj * mask`, `np.fill_diagonal(adj, 0.0)`,
`row_sums = adj.sum(axis=1, keepdims=True) + 1e-12`, `adj = adj / row_sums`.
The two matrix draws consume `n*n` stream values each, row-major. -/

/-- The first uniform matrix draw `adj = rng.random((n, n))`. -/
def netAdj0 (n : ℕ) (g : Rng) : Matrix (Fin n) (Fin n) ℚ :=
  fun i j => g.stream (g.pos + (i.val * n + j.val))

/-- The boolean mask `rng.random((n, n)) < density` (second matrix draw). -/
def netMask (n : ℕ) (density : ℚ) (g : Rng) : Fin n → Fin n → Bool :=
  fun i j => decide (g.stream (g.pos + n * n + (i.val * n + j.val)) < density)

/-- `adj = adj * mask` (a False mask entry zeroes the weight). -/
def netMasked (n : ℕ) (density : ℚ) (g : Rng) : Matrix (Fin n) (Fin n) ℚ :=
  fun i j => if netMask n density g i j then netAdj0 n g i j else 0

/-- `np.fill_diagonal(adj, 0.0)`. -/
def netDiag0 (n : ℕ) (density : ℚ) (g : Rng) : Matrix (Fin n) (Fin n) ℚ :=
  fun i j => if i = j then 0 else netMasked n density g i j

/-- The sum of row `i` of the diagonal-zeroed masked matrix
(`adj.sum(axis=1)` before the epsilon). -/
def netRowTotal (n : ℕ) (density : ℚ) (g : Rng) (i : Fin n) : ℚ :=
  ∑ j, netDiag0 n density g i j

/-- `row_sums = adj.sum(axis=1, keepdims=True) + 1e-12`. -/
def netRowSum (n : ℕ) (density : ℚ) (g : Rng) (i : Fin n) : ℚ :=
  netRowTotal n density g i + eps12

/-- `build_reaction_network(n, density)`: the normalized adjacency matrix,
together with the generator state after the two `n×n` draws. -/
def build_reaction_network (n : ℕ) (density : ℚ) (g : Rng) :
    Matrix (Fin n) (Fin n) ℚ × Rng :=
  (fun i j => netDiag0 n density g i j / netRowSum n density g i,
   { g with pos := g.pos + 2 * (n * n) })

/-- `evaluate_cycle_coherence(adj, energy, leak, noise)`: coherence score and
the cycle-present boolean.  The eigenvalue spectral radius and `np.log` come
from the environment `env`. -/
def evaluate_cycle_coherence (env : NumEnv) {n : ℕ}
    (adj : Matrix (Fin n) (Fin n) ℚ) (energy leak noise : ℚ) : ℚ × Bool :=
  let spectral_radius := env.spectralRadius adj
  let entropy := -(∑ i, ∑ j, (adj i j + eps12) * env.log (adj i j + eps12)) / n
  let coherence := spectral_radius * (1 + 0.6 * energy) - (0.4 * leak + 0.3 * noise)
  let loop_strength := (∑ i, ((adj + eps6 • (1 : Matrix (Fin n) (Fin n) ℚ)) ^ 3) i i) / n
  (coherence, decide (coherence + 0.15 * entropy + 0.5 * loop_strength > 0.85))

/-- `inner_period(ext_periods, f_eta, levels)`: mean of `T * f_eta ** levels`
over the external periods. -/
def inner_period (ext_periods : List ℚ) (f_eta : ℚ) (levels : ℕ) : ℚ :=
  listMean (ext_periods.map fun T => T * f_eta ^ levels)

/-- `resonance_score(T_internal, ext_periods, tol)`: for each external period
`T`, `k = max(1, int(round(T / T_internal)))`,
`mismatch = abs(T/k - T_internal) / (T + 1e-9)`, score
`max(0.0, 1.0 - mismatch / tol)`; the result is the mean of the scores. -/
def resonance_score (T_internal : ℚ) (ext_periods : List ℚ) (tol : ℚ) : ℚ :=
  listMean (ext_periods.map fun T =>
    let k : ℤ := max 1 (pyRound (T / T_internal))
    let mismatch := |T / (k : ℚ) - T_internal| / (T + eps9)
    max 0 (1 - mismatch / tol))

/-- `membrane_stability(base_threshold, energy_grad, noise)`. -/
def membrane_stability (base_threshold energy_grad noise : ℚ) : ℚ :=
  base_threshold + 0.25 * energy_grad - 0.35 * noise

/-- The `effective_error` local of `replication_fidelity`:
`base_error * (1 + 0.5 * (code_length / 64)) * (1 - 0.6 * mod_factor)`. -/
def effective_error (code_length : ℤ) (base_error mod_factor : ℚ) : ℚ :=
  base_error * (1 + 0.5 * ((code_length : ℚ) / 64)) * (1 - 0.6 * mod_factor)

/-- `replication_fidelity(code_length, alphabet, base_error, mod_factor)`:
`max(0.0, 1.0 - effective_error)`.  (`alphabet` is accepted and unused,
exactly as in the source.) -/
def replication_fidelity (code_length : ℤ) (alphabet : ℤ)
    (base_error mod_factor : ℚ) : ℚ :=
  max 0 (1 - effective_error code_length base_error mod_factor)

/-- `invariant_I(coherence, T_internal) = coherence / (T_internal + 1e-9)`. -/
def invariant_I (coherence T_internal : ℚ) : ℚ :=
  coherence / (T_internal + eps9)

/-- The default `ext_periods` filled in by `Params.__post_init__`:
`[1.0, 29.5, 31025.0]`. -/
def defaultPeriods : List ℚ := [1, 29.5, 31025]

/-- The `Params` dataclass, with the source's default field values.
`ext_periods` defaults to `None` (here `none`) and is filled by
`Params.postInit`. -/
structure Params where
  n_species : ℕ := 20
  density : ℚ := 0.6
  energy_grad : ℚ := 1
  noise_level : ℚ := 0.25
  tidal_mod_amp : ℚ := 0.2
  membrane_threshold : ℚ := 0.55
  membrane_leak : ℚ := 0.15
  code_length : ℤ := 64
  alphabet : ℤ := 4
  base_error_rate : ℚ := 0.02
  crit_error_threshold : ℚ := 0.04
  f_eta : ℚ := 0.32
  ext_periods : Option (List ℚ) := none
  resonance_tolerance : ℚ := 0.08
  trials : ℕ := 500
  mode : String := "no_field"

/-- `Params.__post_init__`: its entire body is
`if self.ext_periods is None: self.ext_periods = [1.0, 29.5, 31025.0]`.
Dataclass construction runs field assignment and then this method; neither
can raise, so construction is a total function of the field values. -/
def Params.postInit (p : Params) : Params :=
  match p.ext_periods with
  | none => { p with ext_periods := some defaultPeriods }
  | some _ => p

/-- The external-period list of a post-init `Params`.  `__post_init__`
guarantees `ext_periods` is a list on every constructed `Params`, so the
`none` fallback is never reached for such values. -/
def Params.periods (p : Params) : List ℚ := p.ext_periods.getD []

/-- The `Result` dataclass. -/
structure Result where
  success_rate : ℚ
  mean_cycle_coherence : ℚ
  mean_replication_fidelity : ℚ
  mean_invariant_I : ℚ
  successes : ℕ
  trials : ℕ
  mode : String

/-- The per-trial metrics dict returned by `run_trial`. -/
structure Metrics where
  coherence : ℚ
  fidelity : ℚ
  I : ℚ
  membrane_stability : ℚ
  T_internal : ℚ
  resonance : ℚ

/-! ## `run_trial`, staged

Each stage is a named function of `(params, rng-state)` so the theorems can
speak about the exact intermediate values `run_trial` computes; the generator
is threaded in the source's call order: the two network draws, then the
normal draws for energy, noise and leak, then (in `no_field` mode only) one
uniform draw for the internal period. -/

/-- Step 1: `adj = build_reaction_network(params.n_species, params.density)`. -/
def trialNet (p : Params) (g : Rng) : Matrix (Fin p.n_species) (Fin p.n_species) ℚ × Rng :=
  build_reaction_network p.n_species p.density g

/-- `energy = params.energy_grad * (1.0 + rng.normal(0.0, 0.1))`, with the
generator state it consumes. -/
def trialEnergyDraw (p : Params) (g : Rng) : ℚ × Rng :=
  (trialNet p g).2.normal 0 0.1

/-- The sampled `energy`. -/
def trialEnergy (p : Params) (g : Rng) : ℚ :=
  p.energy_grad * (1 + (trialEnergyDraw p g).1)

/-- `noise = max(0.0, params.noise_level * (1.0 + rng.normal(0.0, 0.2)))`. -/
def trialNoiseDraw (p : Params) (g : Rng) : ℚ × Rng :=
  (trialEnergyDraw p g).2.normal 0 0.2

/-- The sampled `noise`. -/
def trialNoise (p : Params) (g : Rng) : ℚ :=
  max 0 (p.noise_level * (1 + (trialNoiseDraw p g).1))

/-- `leak = max(0.0, params.membrane_leak * (1.0 + rng.normal(0.0, 0.25)))`. -/
def trialLeakDraw (p : Params) (g : Rng) : ℚ × Rng :=
  (trialNoiseDraw p g).2.normal 0 0.25

/-- The sampled `leak`. -/
def trialLeak (p : Params) (g : Rng) : ℚ :=
  max 0 (p.membrane_leak * (1 + (trialLeakDraw p g).1))

/-- Generator state after the environment sampling. -/
def trialG4 (p : Params) (g : Rng) : Rng := (trialLeakDraw p g).2

/-- `mem_stab = membrane_stability(params.membrane_threshold, energy, noise)`. -/
def trialMemStab (p : Params) (g : Rng) : ℚ :=
  membrane_stability p.membrane_threshold (trialEnergy p g) (trialNoise p g)

/-- `T_int`: in `no_field` mode `max(0.05, rng.random() * 2.0)`, otherwise
`inner_period(params.ext_periods, params.f_eta, levels=2)`. -/
def trialTInt (p : Params) (g : Rng) : ℚ :=
  if p.mode = "no_field" then max 0.05 ((trialG4 p g).random.1 * 2)
  else inner_period p.periods p.f_eta 2

/-- `reson`: `0.0` in `no_field` mode, otherwise
`resonance_score(T_int, params.ext_periods, params.resonance_tolerance)`. -/
def trialReson (p : Params) (g : Rng) : ℚ :=
  if p.mode = "no_field" then 0
  else resonance_score (trialTInt p g) p.periods p.resonance_tolerance

/-- `mod_factor`: `0.05` in `no_field` mode, otherwise `0.2 + 0.6 * reson`. -/
def trialModFactor (p : Params) (g : Rng) : ℚ :=
  if p.mode = "no_field" then 0.05 else 0.2 + 0.6 * trialReson p g

/-- Generator state at the end of the trial (the `no_field` branch consumed
one extra uniform draw). -/
def trialGAfter (p : Params) (g : Rng) : Rng :=
  if p.mode = "no_field" then (trialG4 p g).random.2 else trialG4 p g

/-- `coherence, has_cycle = evaluate_cycle_coherence(adj, energy, leak, noise)`. -/
def trialCyc (env : NumEnv) (p : Params) (g : Rng) : ℚ × Bool :=
  evaluate_cycle_coherence env (trialNet p g).1 (trialEnergy p g)
    (trialLeak p g) (trialNoise p g)

/-- `fidelity = replication_fidelity(params.code_length, params.alphabet,
params.base_error_rate, mod_factor)`. -/
def trialFidelity (p : Params) (g : Rng) : ℚ :=
  replication_fidelity p.code_length p.alphabet p.base_error_rate (trialModFactor p g)

/-- The `effective_error` computed inside `replication_fidelity` during the
trial. -/
def trialEffError (p : Params) (g : Rng) : ℚ :=
  effective_error p.code_length p.base_error_rate (trialModFactor p g)

/-- `run_trial(params)`: success boolean, metrics dict, and the generator
state after the trial.  `holds = (mem_stab > 0.5) and has_cycle`;
`error_ok = (1.0 - fidelity) < params.crit_error_threshold`;
`success = holds and error_ok`. -/
def run_trial (env : NumEnv) (p : Params) (g : Rng) : Bool × Metrics × Rng :=
  let mem_stab := trialMemStab p g
  let coherence := (trialCyc env p g).1
  let has_cycle := (trialCyc env p g).2
  let holds := decide (mem_stab > 0.5) && has_cycle
  let fidelity := trialFidelity p g
  let error_ok := decide (1 - fidelity < p.crit_error_threshold)
  let Ival := invariant_I coherence (trialTInt p g)
  (holds && error_ok,
   { coherence := coherence, fidelity := fidelity, I := Ival,
     membrane_stability := mem_stab, T_internal := trialTInt p g,
     resonance := trialReson p g },
   trialGAfter p g)

/-- The Monte Carlo loop of `run_simulation`: runs `k` trials threading the
generator, returning the success count, the three accumulated metric lists
(in trial order) and the final generator state. -/
def simLoop (env : NumEnv) (p : Params) : ℕ → Rng → ℕ × List ℚ × List ℚ × List ℚ × Rng
  | 0, g => (0, [], [], [], g)
  | Nat.succ k, g =>
      let t := run_trial env p g
      let rest := simLoop env p k t.2.2
      ((if t.1 then 1 else 0) + rest.1,
       t.2.1.coherence :: rest.2.1,
       t.2.1.fidelity :: rest.2.2.1,
       t.2.1.I :: rest.2.2.2.1,
       rest.2.2.2.2)

/-- `run_simulation(params)`.  After the loop the source computes
`sr = successes / params.trials` with no guard — a Python
`ZeroDivisionError` when `trials == 0` — while each mean is guarded by
`... if list else 0.0`; the unguarded division is modelled by the
`Except.error` branch. -/
def run_simulation (env : NumEnv) (p : Params) (g : Rng) : Except String Result :=
  let acc := simLoop env p p.trials g
  if p.trials = 0 then Except.error "ZeroDivisionError: division by zero"
  else Except.ok
    { success_rate := (acc.1 : ℚ) / (p.trials : ℚ)
      mean_cycle_coherence := if acc.2.1 = [] then 0 else listMean acc.2.1
      mean_replication_fidelity := if acc.2.2.1 = [] then 0 else listMean acc.2.2.1
      mean_invariant_I := if acc.2.2.2.1 = [] then 0 else listMean acc.2.2.2.1
      successes := acc.1
      trials := p.trials
      mode := p.mode }

/-! ## Concrete instances used by the witnesses -/

/-- A concrete numerical environment (any environment works for every
theorem below). -/
def env0 : NumEnv := { spectralRadius := fun {_} _ => 0, log := fun _ => 0 }

/-- A concrete generator state: the all-zero stream at position 0. -/
def rng0 : Rng := { stream := fun _ => 0, pos := 0 }

/-- The default `Params()` after `__post_init__`. -/
def params0 : Params := Params.postInit {}

/-- `Params(mode="field")` after `__post_init__`. -/
def paramsField : Params := Params.postInit { mode := "field" }

/-! ## Helper lemmas -/

/-- `pyRound` is the identity on integers (cast from `ℕ`). -/
lemma pyRound_natCast (m : ℕ) : pyRound ((m : ℕ) : ℚ) = (m : ℤ) := by
  norm_num [pyRound, Int.floor_natCast]

/-- If a function is constantly `1` on a list, the sum of its image is the
list's length. -/
lemma sum_map_ones {α : Type} (l : List α) (f : α → ℚ) (h : ∀ x ∈ l, f x = 1) :
    (l.map f).sum = (l.length : ℚ) := by
  induction l with
  | nil => simp
  | cons x xs ih =>
    have hx := h x (List.mem_cons_self x xs)
    have hxs : ∀ y ∈ xs, f y = 1 := fun y hy => h y (List.mem_cons_of_mem x hy)
    simp [hx, ih hxs]
    ring

/-- The sum of a list of rationals bounded by `1` is at most the length. -/
lemma list_sum_le_length (l : List ℚ) (h : ∀ x ∈ l, x ≤ 1) :
    l.sum ≤ (l.length : ℚ) := by
  induction l with
  | nil => simp
  | cons x xs ih =>
    have hx := h x (List.mem_cons_self x xs)
    have hxs := ih fun y hy => h y (List.mem_cons_of_mem x hy)
    simp only [List.sum_cons, List.length_cons]
    push_cast
    linarith

/-- `listMean` of a list of nonnegative rationals is nonnegative. -/
lemma listMean_nonneg (l : List ℚ) (h : ∀ x ∈ l, 0 ≤ x) : 0 ≤ listMean l :=
  div_nonneg (List.sum_nonneg h) (Nat.cast_nonneg _)

/-- `listMean` of a nonempty list of rationals bounded by `1` is at most `1`. -/
lemma listMean_le_one (l : List ℚ) (hne : l ≠ []) (h : ∀ x ∈ l, x ≤ 1) :
    listMean l ≤ 1 := by
  have hlen : (0 : ℚ) < (l.length : ℚ) := by
    exact_mod_cast List.length_pos.mpr hne
  rw [listMean, div_le_one hlen]
  exact list_sum_le_length l h

/-- `listMean` of a nonempty list on which `f` is constantly `1` is `1`. -/
lemma listMean_map_ones {α : Type} (l : List α) (f : α → ℚ) (hne : l ≠ [])
    (h : ∀ x ∈ l, f x = 1) : listMean (l.map f) = 1 := by
  have hlen : (0 : ℚ) < (l.length : ℚ) := by
    exact_mod_cast List.length_pos.mpr hne
  rw [listMean, sum_map_ones l f h, List.length_map, div_self (by linarith)]

/-- The genetic gate `(1 - fidelity) < c` tested by `run_trial` coincides
with `effective_error < c` whenever `c ≤ 1` (the clamp `max(0, ·)` inside
`replication_fidelity` only matters when the error already exceeds `1`). -/
lemma one_sub_fidelity_lt_iff (cl a : ℤ) (be mf c : ℚ) (hc : c ≤ 1) :
    (1 - replication_fidelity cl a be mf < c) ↔ (effective_error cl be mf < c) := by
  unfold replication_fidelity
  rcases le_total (1 - effective_error cl be mf) 0 with h | h
  · rw [max_eq_left h]
    constructor
    · intro h1
      linarith
    · intro h1
      linarith
  · rw [max_eq_right h]
    constructor <;> intro h1 <;> linarith

/-! ## Claim theorems -/

/-- **C7.** For every `Params` with mode `"no_field"`, the metrics record of
every trial produced by `run_trial` has resonance exactly `0`. -/
theorem no_field_resonance_zero (env : NumEnv) (p : Params) (g : Rng)
    (h : p.mode = "no_field") :
    (run_trial env p g).2.1.resonance = 0 := by
  simp [run_trial, trialReson, h]

/-- Witness for C7: the default `Params()` (mode `"no_field"`) under a
concrete environment and generator state. -/
theorem no_field_resonance_zero_witness :
    params0.mode = "no_field" ∧ (run_trial env0 params0 rng0).2.1.resonance = 0 :=
  ⟨rfl, no_field_resonance_zero env0 params0 rng0 rfl⟩

/-- **C4.** Determinism as a two-run property: with the simulation embedded
as a pure function of `Params` and the random source's state, two runs of
`run_simulation` from equal states (i.e. the same seed) on identical
`Params` return identical `Result` values. -/
theorem run_simulation_deterministic (env : NumEnv) (p : Params) (g1 g2 : Rng)
    (h : g1 = g2) : run_simulation env p g1 = run_simulation env p g2 := by
  rw [h]

/-- Witness for C4: two runs at a concrete environment, `Params` and state. -/
theorem run_simulation_deterministic_witness :
    rng0 = rng0 ∧ run_simulation env0 params0 rng0 = run_simulation env0 params0 rng0 :=
  ⟨rfl, run_simulation_deterministic env0 params0 rng0 rng0 rfl⟩

/-- **C2 (code bug).** With `trials == 0`, `run_simulation` does not return
a zeroed `Result`: the unguarded `sr = successes / params.trials` raises
`ZeroDivisionError` (the per-mean guards `... if list else 0.0` are never
reached). -/
theorem run_simulation_zero_trials_raises (env : NumEnv) (p : Params) (g : Rng)
    (h : p.trials = 0) :
    run_simulation env p g = Except.error "ZeroDivisionError: division by zero" := by
  simp [run_simulation, h]

/-- Witness for C2: `Params(trials=0)` under a concrete environment and
generator state. -/
theorem run_simulation_zero_trials_raises_witness :
    ({ trials := 0 } : Params).trials = 0 ∧
    run_simulation env0 { trials := 0 } rng0 =
      Except.error "ZeroDivisionError: division by zero" :=
  ⟨rfl, run_simulation_zero_trials_raises env0 { trials := 0 } rng0 rfl⟩

/-- **C3 counterexample.** Constructing a `Params` that is malformed in all
three ways the claim names — zero species, an empty external-period list,
and a non-positive resonance tolerance — completes normally and returns the
malformed value unchanged: no configuration error is raised at
construction time. -/
theorem postInit_accepts_malformed :
    Params.postInit { n_species := 0, ext_periods := some [], resonance_tolerance := -1 }
      = { n_species := 0, ext_periods := some [], resonance_tolerance := -1 } := rfl

/-- **C3 (amended).** `Params` construction performs no validation:
`__post_init__` only replaces a missing `ext_periods` with the default
`[1.0, 29.5, 31025.0]`, preserves every other field untouched, and never
raises — malformed values are accepted at construction time. -/
theorem postInit_no_validation (p : Params) :
    Params.postInit p = { p with ext_periods := some (p.ext_periods.getD defaultPeriods) } := by
  rcases p with ⟨ns, d, eg, nl, tm, mt, ml, cl, al, be, ce, fe, ep, rt, tr, mo⟩
  cases ep <;> rfl

/-- **C8.** Holding the other arguments fixed, with `1 - 0.6 * mod_factor`
nonnegative (the range `run_trial` supplies) and a nonnegative error rate
and code length, `replication_fidelity` is monotonically non-increasing in
`base_error` (first conjunct) and in `code_length` (second conjunct). -/
theorem replication_fidelity_antitone (cl cl' a : ℤ) (be be' mf : ℚ)
    (hmf : 0 ≤ 1 - 0.6 * mf) (hbe0 : 0 ≤ be) (hcl0 : 0 ≤ cl)
    (hbe : be ≤ be') (hcl : cl ≤ cl') :
    replication_fidelity cl a be' mf ≤ replication_fidelity cl a be mf ∧
    replication_fidelity cl' a be mf ≤ replication_fidelity cl a be mf := by
  have hclq : (0 : ℚ) ≤ (cl : ℚ) := by exact_mod_cast hcl0
  have hclq' : (cl : ℚ) ≤ (cl' : ℚ) := by exact_mod_cast hcl
  have hA : (0 : ℚ) ≤ 1 + 0.5 * ((cl : ℚ) / 64) := by linarith
  constructor
  · have he : effective_error cl be mf ≤ effective_error cl be' mf := by
      unfold effective_error
      nlinarith [mul_nonneg hA hmf]
    exact max_le_max le_rfl (by linarith)
  · have he : effective_error cl be mf ≤ effective_error cl' be mf := by
      unfold effective_error
      nlinarith [mul_nonneg hbe0 hmf]
    exact max_le_max le_rfl (by linarith)

/-- Witness for C8: concrete inputs `code_length 64 ≤ 128`,
`base_error 0.02 ≤ 0.03`, `mod_factor = 0.05`. -/
theorem replication_fidelity_antitone_witness :
    ((0 : ℚ) ≤ 1 - 0.6 * 0.05 ∧ (0 : ℚ) ≤ 0.02 ∧ (0 : ℤ) ≤ 64 ∧
     (0.02 : ℚ) ≤ 0.03 ∧ (64 : ℤ) ≤ 128) ∧
    (replication_fidelity 64 4 0.03 0.05 ≤ replication_fidelity 64 4 0.02 0.05 ∧
     replication_fidelity 128 4 0.02 0.05 ≤ replication_fidelity 64 4 0.02 0.05) :=
  ⟨⟨by norm_num, by norm_num, by norm_num, by norm_num, by norm_num⟩,
   replication_fidelity_antitone 64 128 4 0.02 0.03 0.05
     (by norm_num) (by norm_num) (by norm_num) (by norm_num) (by norm_num)⟩

/-- **C9.** For every `code_length ≥ 1`, `base_error ∈ [0,1]` and
`mod_factor ∈ [0, 0.8]` (the range `run_trial` can pass), the value of
`replication_fidelity` lies in the closed interval `[0, 1]`. -/
theorem replication_fidelity_in_unit_interval (cl a : ℤ) (be mf : ℚ)
    (hcl : 1 ≤ cl) (hbe0 : 0 ≤ be) (hbe1 : be ≤ 1)
    (hmf0 : 0 ≤ mf) (hmf1 : mf ≤ 0.8) :
    0 ≤ replication_fidelity cl a be mf ∧ replication_fidelity cl a be mf ≤ 1 := by
  have hclq : (1 : ℚ) ≤ (cl : ℚ) := by exact_mod_cast hcl
  have hA : (0 : ℚ) ≤ 1 + 0.5 * ((cl : ℚ) / 64) := by linarith
  have hB : (0 : ℚ) ≤ 1 - 0.6 * mf := by linarith
  have he : 0 ≤ effective_error cl be mf :=
    mul_nonneg (mul_nonneg hbe0 hA) hB
  refine ⟨le_max_left 0 _, ?_⟩
  unfold replication_fidelity
  exact max_le (by norm_num) (by linarith)

/-- Witness for C9: the source defaults `code_length = 64`,
`base_error = 0.02` with the no-field `mod_factor = 0.05`. -/
theorem replication_fidelity_in_unit_interval_witness :
    ((1 : ℤ) ≤ 64 ∧ (0 : ℚ) ≤ 0.02 ∧ (0.02 : ℚ) ≤ 1 ∧
     (0 : ℚ) ≤ 0.05 ∧ (0.05 : ℚ) ≤ 0.8) ∧
    (0 ≤ replication_fidelity 64 4 0.02 0.05 ∧
     replication_fidelity 64 4 0.02 0.05 ≤ 1) :=
  ⟨⟨by norm_num, by norm_num, by norm_num, by norm_num, by norm_num⟩,
   replication_fidelity_in_unit_interval 64 4 0.02 0.05
     (by norm_num) (by norm_num) (by norm_num) (by norm_num) (by norm_num)⟩

/-- **C1.** For every environment, `Params` with
`crit_error_threshold ∈ [0,1]`, and generator state, `run_trial` reports
success if and only if the membrane holds (`membrane_stability` result
`> 0.5`), the cycle evaluator reports a cycle present, and the effective
replication error is strictly below `crit_error_threshold`; the boolean
outcome depends on nothing else. -/
theorem run_trial_success_iff (env : NumEnv) (p : Params) (g : Rng)
    (hc0 : 0 ≤ p.crit_error_threshold) (hc1 : p.crit_error_threshold ≤ 1) :
    (run_trial env p g).1 = true ↔
      (trialMemStab p g > 0.5 ∧ (trialCyc env p g).2 = true ∧
       trialEffError p g < p.crit_error_threshold) := by
  have h := one_sub_fidelity_lt_iff p.code_length p.alphabet p.base_error_rate
    (trialModFactor p g) p.crit_error_threshold hc1
  simp only [run_trial, trialFidelity, trialEffError, Bool.and_eq_true,
    decide_eq_true_eq]
  rw [h]
  tauto

/-- Witness for C1: the default `Params()` (whose
`crit_error_threshold = 0.04` lies in `[0,1]`) under a concrete environment
and generator state. -/
theorem run_trial_success_iff_witness :
    (0 ≤ params0.crit_error_threshold ∧ params0.crit_error_threshold ≤ 1) ∧
    ((run_trial env0 params0 rng0).1 = true ↔
      (trialMemStab params0 rng0 > 0.5 ∧ (trialCyc env0 params0 rng0).2 = true ∧
       trialEffError params0 rng0 < params0.crit_error_threshold)) :=
  ⟨⟨by rw [show params0.crit_error_threshold = 0.04 from rfl]; norm_num,
    by rw [show params0.crit_error_threshold = 0.04 from rfl]; norm_num⟩,
   run_trial_success_iff env0 params0 rng0
     (by rw [show params0.crit_error_threshold = 0.04 from rfl]; norm_num)
     (by rw [show params0.crit_error_threshold = 0.04 from rfl]; norm_num)⟩

/-- **C6.** If every external period is an exact positive-integer multiple
of the (positive) internal period, each per-period mismatch is `0` and
`resonance_score` returns exactly `1`. -/
theorem resonance_score_perfect (T_internal : ℚ) (periods : List ℚ) (tol : ℚ)
    (hT : 0 < T_internal) (htol : 0 < tol) (hne : periods ≠ [])
    (hmul : ∀ T ∈ periods, ∃ m : ℕ, 1 ≤ m ∧ T = (m : ℚ) * T_internal) :
    resonance_score T_internal periods tol = 1 := by
  unfold resonance_score
  apply listMean_map_ones periods _ hne
  intro T hTm
  obtain ⟨m, hm1, hmeq⟩ := hmul T hTm
  have hmq : (0 : ℚ) < (m : ℚ) := by
    have : (1 : ℚ) ≤ (m : ℚ) := by exact_mod_cast hm1
    linarith
  have hdiv : T / T_internal = ((m : ℕ) : ℚ) := by
    rw [hmeq]
    field_simp
  have hk : max (1 : ℤ) (pyRound (T / T_internal)) = (m : ℤ) := by
    rw [hdiv, pyRound_natCast]
    exact max_eq_right (by exact_mod_cast hm1)
  have hTk : T / (((m : ℤ)) : ℚ) - T_internal = 0 := by
    push_cast
    rw [hmeq, mul_div_cancel_left₀ _ (ne_of_gt hmq), sub_self]
  show max 0 (1 - |T / ((max 1 (pyRound (T / T_internal)) : ℤ) : ℚ) - T_internal|
      / (T + eps9) / tol) = 1
  rw [hk, hTk]
  simp

/-- Witness for C6: internal period `1` with external periods `[1, 2, 3]`
(each an exact integer multiple) and the default tolerance `0.08`. -/
theorem resonance_score_perfect_witness :
    ((0 : ℚ) < 1 ∧ (0 : ℚ) < 0.08 ∧ ([(1 : ℚ), 2, 3] ≠ []) ∧
     (∀ T ∈ [(1 : ℚ), 2, 3], ∃ m : ℕ, 1 ≤ m ∧ T = (m : ℚ) * 1)) ∧
    resonance_score 1 [1, 2, 3] 0.08 = 1 :=
  ⟨⟨by norm_num, by norm_num, by simp,
    by
      intro T hT
      simp only [List.mem_cons, List.not_mem_nil, or_false] at hT
      rcases hT with h | h | h
      · exact ⟨1, le_refl 1, by rw [h]; norm_num⟩
      · exact ⟨2, by norm_num, by rw [h]; norm_num⟩
      · exact ⟨3, by norm_num, by rw [h]; norm_num⟩⟩,
   resonance_score_perfect 1 [1, 2, 3] 0.08 (by norm_num) (by norm_num) (by simp)
     (by
      intro T hT
      simp only [List.mem_cons, List.not_mem_nil, or_false] at hT
      rcases hT with h | h | h
      · exact ⟨1, le_refl 1, by rw [h]; norm_num⟩
      · exact ⟨2, by norm_num, by rw [h]; norm_num⟩
      · exact ⟨3, by norm_num, by rw [h]; norm_num⟩)⟩

/-- For a positive tolerance and a nonempty list of nonnegative external
periods, `resonance_score` lies in `[0, 1]`: each per-period score is a
`max(0, 1 - nonneg)` and the mean of values in `[0,1]` stays in `[0,1]`. -/
lemma resonance_score_mem_unit (T_internal : ℚ) (periods : List ℚ) (tol : ℚ)
    (htol : 0 < tol) (hne : periods ≠ []) (hpos : ∀ T ∈ periods, 0 ≤ T) :
    0 ≤ resonance_score T_internal periods tol ∧
    resonance_score T_internal periods tol ≤ 1 := by
  have heps : (0 : ℚ) < eps9 := by norm_num [eps9]
  unfold resonance_score
  constructor
  · apply listMean_nonneg
    intro x hx
    rcases List.mem_map.mp hx with ⟨T, hTm, rfl⟩
    exact le_max_left 0 _
  · apply listMean_le_one
    · simpa using hne
    · intro x hx
      rcases List.mem_map.mp hx with ⟨T, hTm, rfl⟩
      have hT := hpos T hTm
      have hden : (0 : ℚ) < T + eps9 := by linarith
      have hmm : 0 ≤ |T / ((max 1 (pyRound (T / T_internal)) : ℤ) : ℚ) - T_internal|
          / (T + eps9) := div_nonneg (abs_nonneg _) (le_of_lt hden)
      show max 0 (1 - |T / ((max 1 (pyRound (T / T_internal)) : ℤ) : ℚ) - T_internal|
          / (T + eps9) / tol) ≤ 1
      apply max_le (by norm_num)
      have h2 : 0 ≤ |T / ((max 1 (pyRound (T / T_internal)) : ℤ) : ℚ) - T_internal|
          / (T + eps9) / tol := div_nonneg hmm (le_of_lt htol)
      linarith

/-- **C10.** In mode `"field"` the resonance-derived protection never fully
suppresses replication error: since `resonance_score ∈ [0,1]`, the factor
`1 - 0.6 * mod_factor` with `mod_factor = 0.2 + 0.6 * resonance` is at least
`0.52`, so the trial's effective error is at least
`0.52 * base_error * (1 + 0.5 * code_length / 64)` — strictly positive when
`base_error > 0` — and the trial's fidelity is strictly below `1`. -/
theorem field_mode_error_floor (env : NumEnv) (p : Params) (g : Rng)
    (hmode : p.mode = "field") (hne : p.periods ≠ [])
    (hpos : ∀ T ∈ p.periods, 0 ≤ T) (htol : 0 < p.resonance_tolerance)
    (hbe : 0 < p.base_error_rate) (hcl : 0 ≤ p.code_length) :
    0.52 * p.base_error_rate * (1 + 0.5 * ((p.code_length : ℚ) / 64))
        ≤ trialEffError p g ∧
    0 < 0.52 * p.base_error_rate * (1 + 0.5 * ((p.code_length : ℚ) / 64)) ∧
    (run_trial env p g).2.1.fidelity < 1 := by
  have hmode' : p.mode ≠ "no_field" := by rw [hmode]; decide
  obtain ⟨hr0, hr1⟩ := resonance_score_mem_unit (trialTInt p g) p.periods
    p.resonance_tolerance htol hne hpos
  have hreson : trialReson p g
      = resonance_score (trialTInt p g) p.periods p.resonance_tolerance := by
    rw [trialReson, if_neg hmode']
  have hmf : trialModFactor p g = 0.2 + 0.6 * trialReson p g := by
    rw [trialModFactor, if_neg hmode']
  have hB : 0.52 ≤ 1 - 0.6 * trialModFactor p g := by
    rw [hmf, hreson]
    linarith
  have hclq : (0 : ℚ) ≤ (p.code_length : ℚ) := by exact_mod_cast hcl
  have hA : (0 : ℚ) < 1 + 0.5 * ((p.code_length : ℚ) / 64) := by linarith
  have hbound : 0 < 0.52 * p.base_error_rate * (1 + 0.5 * ((p.code_length : ℚ) / 64)) :=
    mul_pos (mul_pos (by norm_num) hbe) hA
  have heq : trialEffError p g = p.base_error_rate
      * (1 + 0.5 * ((p.code_length : ℚ) / 64)) * (1 - 0.6 * trialModFactor p g) := rfl
  have hfloor : 0.52 * p.base_error_rate * (1 + 0.5 * ((p.code_length : ℚ) / 64))
      ≤ trialEffError p g := by
    rw [heq]
    nlinarith [mul_nonneg (le_of_lt (mul_pos hbe hA))
      (by linarith : (0 : ℚ) ≤ 1 - 0.6 * trialModFactor p g - 0.52)]
  refine ⟨hfloor, hbound, ?_⟩
  have hfid : (run_trial env p g).2.1.fidelity = max 0 (1 - trialEffError p g) := rfl
  rw [hfid]
  apply max_lt (by norm_num)
  linarith

/-- Witness for C10: `Params(mode="field")` — default external periods
`[1, 29.5, 31025]`, tolerance `0.08`, base error `0.02`, code length `64` —
under a concrete environment and generator state. -/
theorem field_mode_error_floor_witness :
    (paramsField.mode = "field" ∧ paramsField.periods ≠ [] ∧
     (∀ T ∈ paramsField.periods, 0 ≤ T) ∧ 0 < paramsField.resonance_tolerance ∧
     0 < paramsField.base_error_rate ∧ (0 : ℤ) ≤ paramsField.code_length) ∧
    (0.52 * paramsField.base_error_rate
        * (1 + 0.5 * ((paramsField.code_length : ℚ) / 64))
        ≤ trialEffError paramsField rng0 ∧
     0 < 0.52 * paramsField.base_error_rate
        * (1 + 0.5 * ((paramsField.code_length : ℚ) / 64)) ∧
     (run_trial env0 paramsField rng0).2.1.fidelity < 1) :=
  ⟨⟨rfl,
    by show (1 : ℚ) :: [29.5, 31025] ≠ []; exact List.cons_ne_nil _ _,
    by
      intro T hT
      simp only [show paramsField.periods = defaultPeriods from rfl, defaultPeriods,
        List.mem_cons, List.not_mem_nil, or_false] at hT
      rcases hT with h | h | h <;> rw [h] <;> norm_num,
    by show (0 : ℚ) < 0.08; norm_num,
    by show (0 : ℚ) < 0.02; norm_num,
    by show (0 : ℤ) ≤ 64; norm_num⟩,
   field_mode_error_floor env0 paramsField rng0 rfl
     (by show (1 : ℚ) :: [29.5, 31025] ≠ []; exact List.cons_ne_nil _ _)
     (by
      intro T hT
      simp only [show paramsField.periods = defaultPeriods from rfl, defaultPeriods,
        List.mem_cons, List.not_mem_nil, or_false] at hT
      rcases hT with h | h | h <;> rw [h] <;> norm_num)
     (by show (0 : ℚ) < 0.08; norm_num)
     (by show (0 : ℚ) < 0.02; norm_num)
     (by show (0 : ℤ) ≤ 64; norm_num)⟩

/-- Entries of the masked, diagonal-zeroed matrix are nonnegative when the
uniform stream is nonnegative. -/
lemma netDiag0_nonneg (n : ℕ) (density : ℚ) (g : Rng)
    (hg : ∀ k, 0 ≤ g.stream k) (i j : Fin n) :
    0 ≤ netDiag0 n density g i j := by
  unfold netDiag0 netMasked netAdj0
  split
  · exact le_refl 0
  · split
    · exact hg _
    · exact le_refl 0

/-- **C5.** For every species count `n ≥ 1`, density `d ∈ [0,1]` and
generator state with uniform draws in `[0,1)`, the matrix returned by
`build_reaction_network`: (a) has every diagonal entry exactly `0`; (b) has
every row-normalization denominator strictly positive, so no entry is an
ill-defined `0/0` (the NaN case); and (c) each row either is entirely zero
with row sum exactly `0` (the mask emptied the row), or has row sum in
`(0, 1)` within `eps12 / s` of `1`, where `s` is the unnormalized row sum —
the exact-arithmetic form of "sums to 1 within floating tolerance". -/
theorem build_reaction_network_rows (n : ℕ) (density : ℚ) (g : Rng)
    (hn : 1 ≤ n) (hd0 : 0 ≤ density) (hd1 : density ≤ 1)
    (hg : ∀ k, 0 ≤ g.stream k ∧ g.stream k < 1) :
    (∀ i, (build_reaction_network n density g).1 i i = 0) ∧
    (∀ i, 0 < netRowSum n density g i) ∧
    (∀ i, ((∀ j, (build_reaction_network n density g).1 i j = 0) ∧
            (∑ j, (build_reaction_network n density g).1 i j) = 0)
          ∨ (0 < (∑ j, (build_reaction_network n density g).1 i j) ∧
             (∑ j, (build_reaction_network n density g).1 i j) < 1 ∧
             1 - (∑ j, (build_reaction_network n density g).1 i j)
               ≤ eps12 / netRowTotal n density g i)) := by
  have hg0 : ∀ k, 0 ≤ g.stream k := fun k => (hg k).1
  have heps : (0 : ℚ) < eps12 := by norm_num [eps12]
  have hent : ∀ i j, 0 ≤ netDiag0 n density g i j := netDiag0_nonneg n density g hg0
  have htot : ∀ i, 0 ≤ netRowTotal n density g i := fun i =>
    Finset.sum_nonneg fun j _ => hent i j
  have hrs : ∀ i, 0 < netRowSum n density g i := fun i => by
    have := htot i
    rw [netRowSum]
    linarith
  have hentry : ∀ i j, (build_reaction_network n density g).1 i j
      = netDiag0 n density g i j / netRowSum n density g i := fun i j => rfl
  have hsum : ∀ i, (∑ j, (build_reaction_network n density g).1 i j)
      = netRowTotal n density g i / netRowSum n density g i := by
    intro i
    rw [netRowTotal, Finset.sum_div]
    exact Finset.sum_congr rfl fun j _ => hentry i j
  refine ⟨?_, hrs, ?_⟩
  · intro i
    rw [hentry]
    have : netDiag0 n density g i i = 0 := by
      unfold netDiag0
      simp
    rw [this, zero_div]
  · intro i
    rcases eq_or_lt_of_le (htot i) with h0 | hpos
    · left
      constructor
      · intro j
        rw [hentry]
        have : netDiag0 n density g i j = 0 := by
          have := (Finset.sum_eq_zero_iff_of_nonneg fun j _ => hent i j).mp h0.symm
          exact this j (Finset.mem_univ j)
        rw [this, zero_div]
      · rw [hsum, ← h0, zero_div]
    · right
      have hden := hrs i
      have hlt : netRowTotal n density g i < netRowSum n density g i := by
        rw [netRowSum]
        linarith
      refine ⟨?_, ?_, ?_⟩
      · rw [hsum]
        exact div_pos hpos hden
      · rw [hsum]
        rw [div_lt_one hden]
        exact hlt
      · rw [hsum]
        have h1 : 1 - netRowTotal n density g i / netRowSum n density g i
            = eps12 / netRowSum n density g i := by
          rw [netRowSum]
          field_simp
        rw [h1]
        gcongr

/-- Witness for C5: `n = 2`, the default density `0.6`, and the all-zero
uniform stream (every draw in `[0,1)`). -/
theorem build_reaction_network_rows_witness :
    ((1 : ℕ) ≤ 2 ∧ (0 : ℚ) ≤ 0.6 ∧ (0.6 : ℚ) ≤ 1 ∧
     (∀ k, 0 ≤ rng0.stream k ∧ rng0.stream k < 1)) ∧
    ((∀ i, (build_reaction_network 2 0.6 rng0).1 i i = 0) ∧
     (∀ i, 0 < netRowSum 2 0.6 rng0 i) ∧
     (∀ i, ((∀ j, (build_reaction_network 2 0.6 rng0).1 i j = 0) ∧
             (∑ j, (build_reaction_network 2 0.6 rng0).1 i j) = 0)
           ∨ (0 < (∑ j, (build_reaction_network 2 0.6 rng0).1 i j) ∧
              (∑ j, (build_reaction_network 2 0.6 rng0).1 i j) < 1 ∧
              1 - (∑ j, (build_reaction_network 2 0.6 rng0).1 i j)
                ≤ eps12 / netRowTotal 2 0.6 rng0 i))) :=
  ⟨⟨by norm_num, by norm_num, by norm_num,
    by intro k; exact ⟨le_refl 0, by show (0 : ℚ) < 1; norm_num⟩⟩,
   build_reaction_network_rows 2 0.6 rng0 (by norm_num) (by norm_num) (by norm_num)
     (by intro k; exact ⟨le_refl 0, by show (0 : ℚ) < 1; norm_num⟩)⟩

end EnGeL
